import Mathlib

set_option maxHeartbeats 1000000

/-!
Formal model of the better-browser-use session core.

Each Python module of `scripts/` that the verified properties touch is
embedded as a Lean namespace with executable definitions translated from
the source: `Cfg` (config.py), `RateLim` (rate_limiter.py), `Fsm`
(agent_fsm.py), `Engine` (browser_engine.py), `Creds` (session.py),
`Models` (models.py), `Server` (server.py), `Snap` (snapshot.py) and
`Diff` (the snapshot diff layer).  Machine integers are modelled as `Nat`,
Python floats as exact rationals, dictionaries as insertion-ordered
association lists, and exceptions as `Option`/sum results.  External
effects (the browser, the clock, SHA-256 digests) enter as explicit
parameters.
-/

/-! ## Preliminaries: decimal rendering of naturals (Python str(n) / f-strings) -/

/-- The ASCII digit character for a value below ten. -/
def decDigit (d : Nat) : Char := Char.ofNat (48 + d)

/-- Fueled decimal rendering; the fuel `n + 1` always suffices since the
recursion divides by ten. -/
def decCharsAux : Nat → Nat → List Char
  | 0, _ => []
  | fuel + 1, n =>
    if n < 10 then [decDigit n]
    else decCharsAux fuel (n / 10) ++ [decDigit (n % 10)]

/-- Decimal digit list of a natural number, most significant first. -/
def decChars (n : Nat) : List Char := decCharsAux (n + 1) n

/-- Decimal string of a natural number (Python `str(n)`). -/
def natStr (n : Nat) : String := String.mk (decChars n)

/-- Parse a digit list back to a value; used to prove `decChars` injective. -/
def decVal (cs : List Char) : Nat := cs.foldl (fun a c => a * 10 + (c.toNat - 48)) 0

/-! ## Preliminaries: insertion-ordered dictionaries (Python dict) -/

/-- First value stored under a key (Python `d.get(k)` / `d[k]`). -/
def alookup {κ α : Type} [DecidableEq κ] : List (κ × α) → κ → Option α
  | [], _ => none
  | p :: rest, k => if p.1 = k then some p.2 else alookup rest k

/-- Key-presence test (Python `k in d`). -/
def amem {κ α : Type} [DecidableEq κ] (d : List (κ × α)) (k : κ) : Bool :=
  (alookup d k).isSome

/-- Python `d[k] = v`: an existing key keeps its position and gets the new
value; a new key is appended at the end. -/
def aset {κ α : Type} [DecidableEq κ] (d : List (κ × α)) (k : κ) (v : α) :
    List (κ × α) :=
  if amem d k then d.map (fun p => if p.1 = k then (k, v) else p)
  else d ++ [(k, v)]

/-- Python `d.pop(k, None)`: drop every pair stored under the key. -/
def adrop {κ α : Type} [DecidableEq κ] (d : List (κ × α)) (k : κ) :
    List (κ × α) :=
  d.filter (fun p => p.1 ≠ k)

/-! ## Preliminaries: character classes shared by the embedded regexes -/

/-- Python regex `\w` restricted to ASCII (the repository only feeds it
ASCII role names, attribute names and credential keys). -/
def isWordChar (c : Char) : Bool := c.isAlphanum || c = '_'

/-- Python regex `\s` / `str.strip` whitespace. -/
def isWsChar (c : Char) : Bool := c.isWhitespace

/-- Contiguous-sublist test: Python's substring operator `p in s`. -/
def infixOfL {α : Type} [BEq α] (p : List α) : List α → Bool
  | [] => p.isEmpty
  | c :: rest => p.isPrefixOf (c :: rest) || infixOfL p rest

/-- Python `str.strip()` on both ends. -/
def trimStr (s : String) : String :=
  String.mk (((s.data.dropWhile isWsChar).reverse.dropWhile isWsChar).reverse)

/-- Python `str.lower()` (ASCII case folding suffices for the inputs used). -/
def lowerStr (s : String) : String := String.mk (s.data.map Char.toLower)

namespace Cfg

/-! ## config.py -/

/-- A character allowed by `PROFILE_NAME_RE = ^[a-zA-Z0-9._-]+$`. -/
def allowedChar (c : Char) : Bool :=
  c.isAlpha || c.isDigit || c = '.' || c = '_' || c = '-'

/-- `PROFILE_NAME_RE.match(name)`: Python's `$` also matches just before a
single trailing newline, so a name may optionally carry one final `\n`. -/
def regexMatchName (s : String) : Bool :=
  let cs := s.data
  let core := if cs.getLast? = some '\n' then cs.dropLast else cs
  !core.isEmpty && core.all allowedChar

/-- `validate_profile_name`: returns an error string or `none` for valid. -/
def validate_profile_name (name : String) : Option String :=
  if name.data.isEmpty then some ("Profile name cannot be empty")
  else if !regexMatchName name then
    some ("Invalid profile name '" ++ name ++ "': only [a-zA-Z0-9._-] allowed")
  else if infixOfL ("..").data name.data || ("/").data.isPrefixOf name.data then
    some ("Invalid profile name '" ++ name ++ "': path traversal not allowed")
  else none

/-- Lexical model of `Path.resolve()` on a component list: `.` is dropped,
`..` pops the previous component (symlinks are outside the model; the
profile root is a plain directory). -/
def resolvePath (comps : List String) : List String :=
  comps.foldl
    (fun acc c => if c = "." then acc else if c = ".." then acc.dropLast else acc ++ [c])
    []

/-- `safe_profile_path`: validate the name, resolve `base / name`, and keep
the result only when it is still under the resolved base. -/
def safe_profile_path (base : List String) (name : String) : Option (List String) :=
  if (validate_profile_name name).isSome then none
  else
    let resolved := resolvePath (base ++ [name])
    if (resolvePath base).isPrefixOf resolved then some resolved else none

/-- `Config.SENSITIVE_RATE_LIMITS` (actions per minute per platform). -/
def SENSITIVE_RATE_LIMITS : List (String × Nat) :=
  [("default", 8), ("linkedin.com", 4), ("facebook.com", 5),
   ("twitter.com", 6), ("x.com", 6), ("instagram.com", 4)]

/-- `Config.MAX_SNAPSHOT_BYTES`, the hard cap on serialized output size. -/
def MAX_SNAPSHOT_BYTES : Nat := 100000

end Cfg

namespace RateLim

/-! ## rate_limiter.py -/

/-- Python substring test `pattern in domain`. -/
def substrOf (p s : String) : Bool := infixOfL p.data s.data

/-- The `for pattern, limit in self._limits.items()` loop of `_get_limit`:
first non-default pattern that occurs in the domain wins. -/
def getLimitLoop (pairs : List (String × Nat)) (domain : String) : Option Nat :=
  match pairs with
  | [] => none
  | p :: rest =>
    if p.1 ≠ "default" ∧ substrOf p.1 domain = true then some p.2
    else getLimitLoop rest domain

/-- `RateLimiter._get_limit`: loop over the table, falling back to the
`"default"` entry (or 8) when no pattern matches. -/
def getLimit (limits : List (String × Nat)) (domain : String) : Nat :=
  match getLimitLoop limits domain with
  | some l => l
  | none => (alookup limits "default").getD 8

/-- Formalisation of the specification's words, for comparison: the most
specific (longest) matching non-default pattern supplies the quota. -/
def matchingPatterns (limits : List (String × Nat)) (domain : String) :
    List (String × Nat) :=
  limits.filter (fun p => p.1 ≠ "default" ∧ substrOf p.1 domain = true)

/-- Pick the pattern with the greater length (first wins ties). -/
def moreSpecific (a b : String × Nat) : String × Nat :=
  if b.1.length > a.1.length then b else a

/-- Quota according to the specification's "most specific pattern wins". -/
def specLimit (limits : List (String × Nat)) (domain : String) : Nat :=
  match matchingPatterns limits domain with
  | [] => (alookup limits "default").getD 8
  | m :: ms => (ms.foldl moreSpecific m).2

end RateLim

namespace Fsm

/-! ## agent_fsm.py -/

/-- `AgentStateName` (models.py): the 11 FSM states. -/
inductive StateName where
  | IDLE | LAUNCHING | OBSERVING | PLANNING | ACTING | EVALUATING
  | ESCALATING | RECOVERING | DONE | ERROR | TEARING_DOWN
deriving DecidableEq

/-- `VALID_TRANSITIONS` (every state is a key of the Python dict). -/
def validTransitions : StateName → List StateName
  | .IDLE => [.LAUNCHING]
  | .LAUNCHING => [.OBSERVING, .ERROR]
  | .OBSERVING => [.PLANNING, .ERROR]
  | .PLANNING => [.ACTING, .DONE, .ERROR]
  | .ACTING => [.EVALUATING, .ERROR]
  | .EVALUATING => [.OBSERVING, .ESCALATING, .DONE, .ERROR]
  | .ESCALATING => [.LAUNCHING, .ERROR]
  | .RECOVERING => [.OBSERVING, .ESCALATING, .ERROR]
  | .DONE => [.TEARING_DOWN, .IDLE]
  | .ERROR => [.RECOVERING, .TEARING_DOWN, .IDLE]
  | .TEARING_DOWN => [.IDLE]

/-- `is_valid_transition`. -/
def is_valid_transition (f t : StateName) : Bool :=
  (validTransitions f).contains t

/-- `Config.FSM_DEADLINES` looked up by state name (ms). -/
def deadlineFor : StateName → Option Nat
  | .LAUNCHING => some 60000
  | .OBSERVING => some 30000
  | .ACTING => some 30000
  | .RECOVERING => some 15000
  | .TEARING_DOWN => some 10000
  | _ => none

/-- `FSMState` (models.py). -/
structure FSMState where
  name : StateName
  since_ms : Nat
  deadline_ms : Option Nat
  epoch : Nat
deriving DecidableEq

/-- `AgentFSM._set_state`: fresh entry time and per-state deadline, with the
epoch passed through. -/
def setState (now : Nat) (name : StateName) (epoch : Nat) : FSMState :=
  { name := name, since_ms := now, deadline_ms := deadlineFor name, epoch := epoch }

/-- `AgentFSM._transition`: validated; `none` models the raised
`INVALID_TRANSITION` error (the state is untouched in that case). -/
def transition (s : FSMState) (tgt : StateName) (now : Nat) : Option FSMState :=
  if is_valid_transition s.name tgt then some (setState now tgt s.epoch) else none

/-- `AgentFSM._force_transition` (ERROR / RECOVERING / TEARING_DOWN entry). -/
def forceTransition (s : FSMState) (tgt : StateName) (now : Nat) : FSMState :=
  setState now tgt s.epoch

/-- `AgentFSM.bump_epoch`: name, entry time and deadline are preserved and
only the epoch is incremented. -/
def bump_epoch (s : FSMState) : FSMState :=
  { name := s.name, since_ms := s.since_ms, deadline_ms := s.deadline_ms,
    epoch := s.epoch + 1 }

/-- One externally observable FSM operation. -/
inductive FsmOp where
  | trans (tgt : StateName) (now : Nat)
  | force (tgt : StateName) (now : Nat)
  | bump
deriving DecidableEq

/-- Apply one operation; an invalid `_transition` raises and leaves the
state unchanged. -/
def applyOp (s : FSMState) : FsmOp → FSMState
  | .trans tgt now =>
    match transition s tgt now with
    | some s2 => s2
    | none => s
  | .force tgt now => forceTransition s tgt now
  | .bump => bump_epoch s

/-- Apply a sequence of operations in order. -/
def applyOps (s : FSMState) (ops : List FsmOp) : FSMState := ops.foldl applyOp s

end Fsm

namespace Engine

/-! ## browser_engine.py: `close`, `list_sessions` and the session registry -/

/-- The fields of an in-memory session record that `close` consults.  The
browser handles themselves are external; whether `tier_impl.teardown`
raises is supplied as an explicit outcome. -/
structure SessionRec where
  closing : Bool
  hasTierImpl : Bool
deriving DecidableEq

/-- Result envelope of `close`. -/
structure CloseResult where
  success : Bool
  error : Option String
deriving DecidableEq

/-- `list_sessions` reports one entry per registry key; only the ids matter
to the properties below. -/
def sessionIds (reg : List (String × SessionRec)) : List String :=
  reg.map Prod.fst

/-- `close(session_id)`.  `teardown = some msg` models the tier teardown
raising with message `msg`; the fallback path (no `tier_impl`) swallows
every error and never raises.  Returns the updated registry and the result. -/
def close (reg : List (String × SessionRec)) (sid : String)
    (teardown : Option String) : List (String × SessionRec) × CloseResult :=
  match alookup reg sid with
  | none => (reg, { success := false, error := some ("Session " ++ sid ++ " not found") })
  | some s =>
    let reg1 := aset reg sid { s with closing := true }
    if s.hasTierImpl && teardown.isSome then
      (aset reg1 sid { s with closing := false },
       { success := false, error := some ("Teardown failed: " ++ teardown.getD "") })
    else
      (adrop reg1 sid, { success := true, error := none })

end Engine

namespace Creds

/-! ## session.py: `SessionManager.resolve_credential` -/

/-- Strip an expected literal prefix, returning the remainder. -/
def stripPre : List Char → List Char → Option (List Char)
  | [], rest => some rest
  | _ :: _, [] => none
  | p :: ps, c :: cs => if c = p then stripPre ps cs else none

/-- The characters of the literal `<secret>` opening tag. -/
def openTag : List Char := ("<secret>").data

/-- The characters of the literal `</secret>` closing tag. -/
def closeTag : List Char := ("</secret>").data

/-- Match the regex `<secret>(\w+)</secret>` at the head of the input.
Returns the captured key and the remainder after the match.  Maximal-munch
on `\w+` is exact here because the closing tag starts with a non-word
character. -/
def matchTag (cs : List Char) : Option (List Char × List Char) :=
  match stripPre openTag cs with
  | none => none
  | some r1 =>
    let key := r1.takeWhile isWordChar
    let r2 := r1.dropWhile isWordChar
    if key.isEmpty then none
    else
      match stripPre closeTag r2 with
      | none => none
      | some r3 => some (key, r3)

/-- `_SECRET_RE.search`: the key of the leftmost tag occurrence. -/
def findTag : List Char → Option (List Char)
  | [] => none
  | c :: cs =>
    match matchTag (c :: cs) with
    | some (k, _) => some k
    | none => findTag cs

/-- `_SECRET_RE.sub(repl, value)`: replace every (non-overlapping, leftmost)
tag occurrence by the same replacement text.  Fueled by the input length,
which suffices since every step consumes at least one character. -/
def subAllAux (repl : List Char) : Nat → List Char → List Char
  | 0, cs => cs
  | _ + 1, [] => []
  | fuel + 1, c :: rest =>
    match matchTag (c :: rest) with
    | some (_, r) => repl ++ subAllAux repl fuel r
    | none => c :: subAllAux repl fuel rest

/-- Replace every tag occurrence by `repl` (regex replacement escapes are
not modelled; secrets are treated as literal text). -/
def subAll (repl cs : List Char) : List Char := subAllAux repl cs.length cs

/-- `resolve_credential(profile, value)` with the loaded credential map made
explicit.  Mode 1: a tagged value is rewritten through `_SECRET_RE.sub` with
the value stored under the FIRST tag's key; an unknown first key returns the
input unchanged.  Mode 2: an input equal to a stored key becomes its value. -/
def resolve_credential (creds : List (String × String)) (value : String) : String :=
  if creds.isEmpty then value
  else
    match findTag value.data with
    | some k =>
      match alookup creds (String.mk k) with
      | some secret => String.mk (subAll secret.data value.data)
      | none => value
    | none =>
      match alookup creds value with
      | some secret => secret
      | none => value

/-- Formalisation of the claim's words, for comparison: each tagged
substring `<secret>k</secret>` is replaced by the value stored under ITS OWN
key `k` (unknown keys are left in place). -/
def subEachAux (creds : List (String × String)) : Nat → List Char → List Char
  | 0, cs => cs
  | _ + 1, [] => []
  | fuel + 1, c :: rest =>
    match matchTag (c :: rest) with
    | some (k, r) =>
      match alookup creds (String.mk k) with
      | some secret => secret.data ++ subEachAux creds fuel r
      | none => openTag ++ k ++ closeTag ++ subEachAux creds fuel r
    | none => c :: subEachAux creds fuel rest

/-- Per-key tag replacement over a whole value. -/
def subEach (creds : List (String × String)) (cs : List Char) : List Char :=
  subEachAux creds cs.length cs

/-- Credential resolution according to the claim's words. -/
def resolveSpec (creds : List (String × String)) (value : String) : String :=
  match findTag value.data with
  | some _ => String.mk (subEach creds value.data)
  | none =>
    match alookup creds value with
    | some secret => secret
    | none => value

end Creds

/-- `RefEntry` / the per-ref dict stored in a snapshot ref map
(`{role, name, selector, nth}`; `nth` is present only for duplicated
`(role, name)` pairs, cursor refs never carry it). -/
structure RefData where
  role : String
  name : Option String
  selector : String
  nth : Option Nat
deriving DecidableEq

/-- Python truthiness of an optional string (`if name:`): `None` and the
empty string are falsy. -/
def nameTruthy : Option String → Bool
  | none => false
  | some s => !s.data.isEmpty

namespace Models

/-! ## models.py: `PageFingerprint` and `ActionLoopDetector` -/

/-- `PageFingerprint`.  `url_hash` stands for the opaque 16-hex SHA-256
prefix of the URL; the detector only ever compares it for equality. -/
structure PageFingerprint where
  url_hash : String
  interactive_count : Nat
  tab_count : Nat
  top_ref_keys : List String
deriving DecidableEq

/-- Codepoint-lexicographic comparison (Python `str` ordering). -/
def charListLt : List Char → List Char → Bool
  | [], [] => false
  | [], _ :: _ => true
  | _ :: _, [] => false
  | a :: as, b :: bs =>
    if a.toNat < b.toNat then true
    else if b.toNat < a.toNat then false
    else charListLt as bs

/-- Python `a < b` on strings. -/
def strLt (a b : String) : Bool := charListLt a.data b.data

/-- Stable insertion sort on strings (Python `sorted` over `str` keys,
codepoint-lexicographic). -/
def insertStr (x : String) : List String → List String
  | [] => [x]
  | y :: ys => if strLt y x then y :: insertStr x ys else x :: y :: ys

/-- Python `sorted` on a list of strings. -/
def sortStrings : List String → List String
  | [] => []
  | x :: xs => insertStr x (sortStrings xs)

/-- The `role:name:nth` descriptor built for one ref
(`f"{d.get('role','')}:{d.get('name') or ''}:{d.get('nth','')}"`). -/
def refDescriptor (d : RefData) : String :=
  d.role ++ ":" ++ (d.name.getD "") ++ ":" ++
    (match d.nth with
     | some n => natStr n
     | none => "")

/-- `PageFingerprint.from_snapshot` with the SHA-256 URL digest supplied as
the opaque `urlHash` argument. -/
def from_snapshot (urlHash : String) (refs : List (String × RefData))
    (tabCount : Nat) : PageFingerprint :=
  let sortedKeys := (sortStrings (refs.map Prod.fst)).take 10
  let refKeys := sortedKeys.map (fun k =>
    match alookup refs k with
    | some d => refDescriptor d
    | none => refDescriptor { role := "", name := none, selector := "", nth := none })
  { url_hash := urlHash, interactive_count := refs.length,
    tab_count := tabCount, top_ref_keys := refKeys }

/-- `PageFingerprint.similarity` with Python float arithmetic carried out
exactly over the rationals (0.5, 0.1, 0.3 become 1/2, 1/10, 3/10).  The
overlap term divides the size of `set(a) & set(b)` by the larger tuple
length; the Python `if max_len else 0` guard is dead because the branch
requires both tuples non-empty. -/
def similarity (self other : PageFingerprint) : ℚ :=
  if self.url_hash ≠ other.url_hash then 0
  else
    let s1 : ℚ := 1/2
    let s2 : ℚ := if self.tab_count = other.tab_count then s1 + 1/10 else s1
    let s3 : ℚ :=
      if self.interactive_count = other.interactive_count then s2 + 1/10 else s2
    let s4 : ℚ :=
      if !self.top_ref_keys.isEmpty && !other.top_ref_keys.isEmpty then
        let overlap : Nat :=
          ((self.top_ref_keys.dedup).filter
            (fun k => k ∈ other.top_ref_keys)).length
        let maxLen : Nat := max self.top_ref_keys.length other.top_ref_keys.length
        s3 + (3/10) * ((overlap : ℚ) / (maxLen : ℚ))
      else s3
    min s4 1

/-- `ActionLoopDetector`: rolling window of `(action_hash, fingerprint)`
pairs.  `compute_action_hash` is an opaque SHA-256 digest of the action
name and normalized params; callers supply it as `actionHash` and the
detector only compares it for equality. -/
structure ActionLoopDetector where
  window : List (String × Option PageFingerprint)
  windowSize : Nat
  threshold : Nat
deriving DecidableEq

/-- A fresh detector (`window_size=10, threshold=3`). -/
def mkDetector : ActionLoopDetector :=
  { window := [], windowSize := 10, threshold := 3 }

/-- The entry test of the `fp_matches` count: same hash, an attached
fingerprint, similarity with the current fingerprint above 0.8. -/
def fpSimOk (f : PageFingerprint) : Option PageFingerprint → Bool
  | some g => decide (similarity f g > 8/10)
  | none => false

/-- CRITICAL-severity message of `record`. -/
def criticalMsg (name : String) (count : Nat) : String :=
  "CRITICAL: Action '" ++ name ++ "' repeated " ++ natStr count ++ " times. " ++
  "You are in an infinite loop. Call done immediately with partial results."

/-- STUCK-severity message of `record`. -/
def stuckMsg (name : String) (count : Nat) : String :=
  "STUCK: Action '" ++ name ++ "' repeated " ++ natStr count ++ " times. " ++
  "Current approach is not working. Try: " ++
  "1) navigate to a different URL, 2) use evaluate to inspect the DOM, " ++
  "3) call done with partial results."

/-- WARNING-severity message of `record`. -/
def warnMsg (name : String) (count : Nat) : String :=
  "WARNING: Action '" ++ name ++ "' repeated " ++ natStr count ++ " times on same page. " ++
  "Try a different approach — scroll, use a different element, or navigate elsewhere."

/-- The rolling window after `self._window.append(...)`: a deque with
`maxlen=window_size` drops its oldest entry on overflow. -/
def pushWindow (d : ActionLoopDetector) (actionHash : String)
    (fp : Option PageFingerprint) : List (String × Option PageFingerprint) :=
  let w0 := d.window ++ [(actionHash, fp)]
  if w0.length > d.windowSize then w0.drop (w0.length - d.windowSize) else w0

/-- `count`: occurrences of the same action hash in the window. -/
def hashCount (w : List (String × Option PageFingerprint)) (actionHash : String) : Nat :=
  (w.filter (fun p => p.1 = actionHash)).length

/-- `fp_matches`: same-hash occurrences whose attached fingerprint is more
than 0.8-similar to the current one. -/
def simCount (w : List (String × Option PageFingerprint)) (actionHash : String)
    (f : PageFingerprint) : Nat :=
  (w.filter (fun p => p.1 = actionHash ∧ fpSimOk f p.2 = true)).length

/-- `ActionLoopDetector.record`.  `actionHash` is the opaque
`compute_action_hash(action_name, params)` digest. -/
def ActionLoopDetector.record (d : ActionLoopDetector) (actionName : String)
    (actionHash : String) (fp : Option PageFingerprint) :
    ActionLoopDetector × Option String :=
  let w := pushWindow d actionHash fp
  let d2 := { d with window := w }
  let count := hashCount w actionHash
  if count < d.threshold then (d2, none)
  else
    let fpMatches :=
      match fp with
      | some f => simCount w actionHash f
      | none => count
    if fpMatches < d.threshold then (d2, none)
    else if d.threshold + 4 ≤ count then (d2, some (criticalMsg actionName count))
    else if d.threshold + 2 ≤ count then (d2, some (stuckMsg actionName count))
    else (d2, some (warnMsg actionName count))

/-- Severity rank of a warning message: the three messages are
distinguished by their first character (`C`RITICAL, `S`TUCK, `W`ARNING). -/
def sevRank (msg : String) : Nat :=
  match msg.data with
  | 'C' :: _ => 2
  | 'S' :: _ => 1
  | _ => 0

/-- Severity bracket the source selects from the occurrence count. -/
def sevOfCount (threshold count : Nat) : Nat :=
  if threshold + 4 ≤ count then 2
  else if threshold + 2 ≤ count then 1
  else 0

end Models

namespace Server

/-! ## server.py: `_truncate_result` and the `handle_http` size policy -/

/-- A JSON value as it appears in a result dict.  String, boolean and
integer fields are modelled in full; any other JSON payload (nested dicts,
arrays of objects, ...) is carried by its serialized byte size alone, which
is all `_truncate_result` ever observes of it.  `jarrStr` covers the
`truncated_fields` list. -/
inductive JVal where
  | jstr (s : String)
  | jbool (b : Bool)
  | jnat (n : Nat)
  | jarrStr (xs : List String)
  | jraw (bytes : Nat)
deriving DecidableEq

/-- `json.dumps` cost of one character inside a string literal
(`ensure_ascii=True`): quote/backslash and the C0 shorthand escapes cost 2,
other control and non-ASCII BMP characters cost 6 (`\uXXXX`), astral
characters cost 12 (a surrogate pair). -/
def charCost (c : Char) : Nat :=
  if c = '"' ∨ c = '\\' then 2
  else if c = '\n' ∨ c = '\t' ∨ c = '\r' ∨ c.toNat = 8 ∨ c.toNat = 12 then 2
  else if c.toNat < 32 then 6
  else if c.toNat < 127 then 1
  else if c.toNat ≤ 65535 then 6
  else 12

/-- Serialized length of a JSON string literal, quotes included. -/
def escLen (s : String) : Nat := 2 + (s.data.map charCost).sum

/-- Serialized length of one JSON value. -/
def serLen : JVal → Nat
  | .jstr s => escLen s
  | .jbool true => 4
  | .jbool false => 5
  | .jnat n => (decChars n).length
  | .jarrStr xs => 2 + ((xs.map escLen).sum + 2 * (xs.length - 1))
  | .jraw bytes => bytes

/-- A result dict: insertion-ordered string-keyed fields. -/
def Dict : Type := List (String × JVal)

/-- Serialized length of one `"key": value` dict entry. -/
def serEntry (p : String × JVal) : Nat := escLen p.1 + 2 + serLen p.2

/-- `len(json.dumps(d))` with the default `", "` / `": "` separators. -/
def serDict (d : List (String × JVal)) : Nat :=
  2 + ((d.map serEntry).sum + 2 * (d.length - 1))

/-- The `(key, len(val))` truncation candidates: string-valued fields other
than `success` and `error`, in insertion order. -/
def truncCandidates (r : List (String × JVal)) : List (String × Nat) :=
  r.filterMap (fun p =>
    match p.2 with
    | .jstr s =>
      if p.1 ≠ "success" ∧ p.1 ≠ "error" then some (p.1, s.data.length) else none
    | _ => none)

/-- Stable descending insertion by size (`sort(key=..., reverse=True)`). -/
def insertDesc (x : String × Nat) : List (String × Nat) → List (String × Nat)
  | [] => [x]
  | y :: ys => if y.2 > x.2 then y :: insertDesc x ys else x :: y :: ys

/-- Stable descending sort by size. -/
def sortDesc : List (String × Nat) → List (String × Nat)
  | [] => []
  | x :: xs => insertDesc x (sortDesc xs)

/-- The truncation marker appended to a cut field. -/
def truncMarker (origLen : Nat) : String :=
  "... [truncated from " ++ natStr origLen ++ " chars]"

/-- The `for key, size in trunc_candidates` loop of `_truncate_result`:
before each step the current dict is re-serialized; once it fits, the loop
breaks.  Otherwise the field is cut to
`max(0, len(field) - overshoot - 200)` characters plus the marker. -/
def truncLoop (maxB : Nat) :
    List (String × Nat) → List (String × JVal) → List String →
    (List (String × JVal)) × List String
  | [], out, tf => (out, tf)
  | (key, _) :: rest, out, tf =>
    let ser := serDict out
    if ser ≤ maxB then (out, tf)
    else
      match alookup out key with
      | some (.jstr s) =>
        let overshoot := ser - maxB
        let newLen := s.data.length - overshoot - 200
        let newVal := String.mk (s.data.take newLen) ++ truncMarker s.data.length
        truncLoop maxB rest (aset out key (.jstr newVal)) (tf ++ [key])
      | _ => (out, tf)

/-- `_truncate_result(result, original_bytes)`. -/
def truncate_result (r : List (String × JVal)) (originalBytes : Nat) :
    List (String × JVal) :=
  let cands := sortDesc (truncCandidates r)
  let (out, tf) := truncLoop Cfg.MAX_SNAPSHOT_BYTES cands r []
  aset (aset (aset out ("truncated") (.jbool true))
      ("truncated_fields") (.jarrStr tf))
    ("original_bytes") (.jnat originalBytes)

/-- The advisory message of the minimal envelope. -/
def limitMsg : String :=
  "Response exceeded size limit even after field truncation. " ++
  "Use a more targeted request to reduce output size."

/-- The minimal envelope built when the truncated result is still oversize:
`success` and `error` are preserved verbatim from the truncated result. -/
def minimalEnvelope (r1 : List (String × JVal)) (o1 : Nat) :
    List (String × JVal) :=
  [("success", (alookup r1 "success").getD (.jbool false)),
   ("error", (alookup r1 "error").getD (.jstr "")),
   ("truncated", .jbool true),
   ("original_bytes", .jnat o1),
   ("message", .jstr limitMsg)]

/-- The size-policing tail of `handle_http`: serialize, truncate once when
oversize, and fall back to the minimal envelope when still oversize. -/
def respond (result : List (String × JVal)) : List (String × JVal) :=
  let output := serDict result
  if output > Cfg.MAX_SNAPSHOT_BYTES then
    let r1 := truncate_result result output
    let o1 := serDict r1
    if o1 > Cfg.MAX_SNAPSHOT_BYTES then minimalEnvelope r1 o1 else r1
  else result

/-- The minimal envelope `respond` would fall back to for a given result;
used to state the amended size bound. -/
def fallbackEnvelope (result : List (String × JVal)) : List (String × JVal) :=
  let r1 := truncate_result result (serDict result)
  minimalEnvelope r1 (serDict r1)

/-- An error string of `n` ASCII letters (each serializes to one byte). -/
def bigErr (n : Nat) : String := String.mk (List.replicate n 'a')

/-- A failed result whose `error` field holds `n` characters — e.g. a large
stack trace stringified by the `Unhandled error: {e}` handler. -/
def oversizeErrorResult (n : Nat) : List (String × JVal) :=
  [("success", .jbool true), ("error", .jstr (bigErr n))]

end Server

namespace Snap

/-! ## snapshot.py: the ARIA-text parser, the ref counter and `take_snapshot` -/

/-- `INTERACTIVE_ROLES`. -/
def INTERACTIVE_ROLES : List String :=
  ["button", "link", "textbox", "checkbox", "radio", "combobox",
   "listbox", "menuitem", "option", "searchbox", "slider",
   "spinbutton", "switch", "tab", "treeitem", "menuitemcheckbox",
   "menuitemradio"]

/-- `CONTENT_ROLES`. -/
def CONTENT_ROLES : List String :=
  ["heading", "cell", "gridcell", "columnheader", "rowheader",
   "listitem", "article", "region", "main", "navigation",
   "complementary", "banner", "contentinfo", "form", "search",
   "feed", "figure", "img", "math", "note", "status", "timer",
   "alert", "log", "marquee", "progressbar", "meter"]

/-- `STRUCTURAL_ROLES`. -/
def STRUCTURAL_ROLES : List String :=
  ["generic", "group", "list", "table", "row", "rowgroup",
   "menu", "toolbar", "tablist", "tabpanel", "tree", "treegrid",
   "grid", "presentation", "none", "separator", "dialog",
   "alertdialog", "application", "document", "directory",
   "paragraph"]

/-- `_SKIP_PREFIXES` (each is already stripped). -/
def skipPrefixes : List String := ["- /url:", "- /src:", "- /alt:"]

/-- `_indent_level`: two leading spaces per level. -/
def indentLevel (line : String) : Nat :=
  (line.data.takeWhile (fun c => c = ' ')).length / 2

/-- `'  ' * indent`. -/
def indentSpaces (n : Nat) : String := String.mk (List.replicate (2 * n) ' ')

/-- Python `str.strip('"')`: drop quote characters from both ends. -/
def stripQuoteEnds (s : String) : String :=
  String.mk (((s.data.dropWhile (fun c => c = '"')).reverse.dropWhile
    (fun c => c = '"')).reverse)

/-- One `_LINE_PATTERN` match: role (group 2), optional raw name (group 3,
escape sequences kept verbatim) and the `[attr=val]` pairs extracted from
group 4 by `_ATTR_PATTERN.findall`. -/
structure LineMatch where
  role : String
  name : Option String
  attrs : List (String × String)
deriving DecidableEq

/-- Parse the quoted-name body `((?:[^"\\]|\\.)*)"`: escape pairs are kept
verbatim, the closing quote is consumed.  Deterministic because the two
regex alternatives start with disjoint characters. -/
def parseQuoted : List Char → Option (List Char × List Char)
  | [] => none
  | '"' :: rest => some ([], rest)
  | '\\' :: c :: rest => (parseQuoted rest).map (fun p => ('\\' :: c :: p.1, p.2))
  | ['\\'] => none
  | c :: rest => (parseQuoted rest).map (fun p => (c :: p.1, p.2))

/-- The `((?:\s+\[[\w]+=\w+\])*)` attribute groups: collect `(name, value)`
pairs until the pattern stops matching, returning the remainder.  Fueled by
the input length (every iteration consumes at least one character). -/
def parseAttrsAux : Nat → List Char → (List (String × String)) × List Char
  | 0, cs => ([], cs)
  | fuel + 1, cs =>
    let ws := cs.takeWhile isWsChar
    let r1 := cs.dropWhile isWsChar
    if ws.isEmpty then ([], cs)
    else
      match r1 with
      | '[' :: r2 =>
        let an := r2.takeWhile isWordChar
        let r3 := r2.dropWhile isWordChar
        if an.isEmpty then ([], cs)
        else
          match r3 with
          | '=' :: r4 =>
            let av := r4.takeWhile isWordChar
            let r5 := r4.dropWhile isWordChar
            if av.isEmpty then ([], cs)
            else
              match r5 with
              | ']' :: r6 =>
                let (more, rem) := parseAttrsAux fuel r6
                ((String.mk an, String.mk av) :: more, rem)
              | _ => ([], cs)
          | _ => ([], cs)
      | _ => ([], cs)

/-- All attribute groups at the head of the input. -/
def parseAttrs (cs : List Char) : (List (String × String)) × List Char :=
  parseAttrsAux cs.length cs

/-- The trailing `\s*:?\s*$` of `_LINE_PATTERN`. -/
def tailOk (cs : List Char) : Bool :=
  match cs.dropWhile isWsChar with
  | [] => true
  | ':' :: r2 => (r2.dropWhile isWsChar).isEmpty
  | _ => false

/-- `_LINE_PATTERN.match(line)`.  The greedy optional name group is exact
here: whenever a quoted name parses, the no-name alternative cannot match
the remaining `\s+"...` text, and vice versa. -/
def matchLine (line : String) : Option LineMatch :=
  match line.data.dropWhile isWsChar with
  | '-' :: r2 =>
    if (r2.takeWhile isWsChar).isEmpty then none
    else
      let r3 := r2.dropWhile isWsChar
      let role := r3.takeWhile isWordChar
      if role.isEmpty then none
      else
        let r4 := r3.dropWhile isWordChar
        let nameAttempt : Option (List Char × List Char) :=
          if (r4.takeWhile isWsChar).isEmpty then none
          else
            match r4.dropWhile isWsChar with
            | '"' :: r5 => parseQuoted r5
            | _ => none
        match nameAttempt with
        | some (nm, r6) =>
          let (attrs, r7) := parseAttrs r6
          if tailOk r7 then
            some { role := String.mk role, name := some (String.mk nm), attrs := attrs }
          else none
        | none =>
          let (attrs, r7) := parseAttrs r4
          if tailOk r7 then
            some { role := String.mk role, name := none, attrs := attrs }
          else none
  | _ => none

/-- `_RoleNameTracker`: the two defaultdicts. -/
structure Tracker where
  counts : List (String × Nat)
  refsByKey : List (String × List String)
deriving DecidableEq

/-- `_RoleNameTracker.key`: `f"{role}:{name or ''}"`. -/
def trackerKey (role : String) (name : Option String) : String :=
  role ++ ":" ++ name.getD ""

/-- `_RoleNameTracker.next_index`. -/
def nextIndex (t : Tracker) (role : String) (name : Option String) :
    Nat × Tracker :=
  let k := trackerKey role name
  let idx := (alookup t.counts k).getD 0
  (idx, { t with counts := aset t.counts k (idx + 1) })

/-- `_RoleNameTracker.track`. -/
def trackRef (t : Tracker) (role : String) (name : Option String)
    (ref : String) : Tracker :=
  let k := trackerKey role name
  { t with refsByKey := aset t.refsByKey k (((alookup t.refsByKey k).getD []) ++ [ref]) }

/-- Membership in `_RoleNameTracker.duplicate_keys()`. -/
def isDupKey (t : Tracker) (k : String) : Bool :=
  ((alookup t.refsByKey k).getD []).length > 1

/-- `name.replace('"', '\\"')` inside `_build_selector`. -/
def escapeQuotes (s : String) : String :=
  String.mk (s.data.foldr (fun c acc => if c = '"' then '\\' :: '"' :: acc else c :: acc) [])

/-- `_build_selector`. -/
def build_selector (role : String) (name : Option String) : String :=
  if nameTruthy name then
    "getByRole(\"" ++ role ++ "\", name=\"" ++ escapeQuotes (name.getD "") ++ "\", exact=True)"
  else
    "getByRole(\"" ++ role ++ "\")"

/-- The mutable loop state of `process_aria_text`: the shared ref counter,
the ref map, the duplicate tracker and the emitted lines. -/
structure PState where
  counter : Nat
  refs : List (String × RefData)
  tracker : Tracker
  outLines : List String

/-- Append the `[attr=val]` parts to an output line. -/
def attrParts (base : String) (attrs : List (String × String)) : String :=
  attrs.foldl (fun s p => s ++ " [" ++ p.1 ++ "=" ++ p.2 ++ "]") base

/-- The main `for i, line in enumerate(raw_lines)` loop of
`process_aria_text`.  In the compact nameless-structural case both source
branches `continue`, so the subtree scan has no effect on control flow and
the node is simply skipped. -/
def runLines (compact : Bool) (maxDepth : Nat) :
    List String → PState → PState
  | [], st => st
  | line :: rest, st =>
    let stripped := trimStr line
    if stripped.data.isEmpty then runLines compact maxDepth rest st
    else if skipPrefixes.any (fun p => p.data.isPrefixOf stripped.data) then
      runLines compact maxDepth rest st
    else if ("- text:").data.isPrefixOf stripped.data then
      let content := stripQuoteEnds (trimStr (String.mk (stripped.data.drop 7)))
      let st2 :=
        if !content.data.isEmpty && !compact then
          { st with outLines := st.outLines ++
              [indentSpaces (indentLevel line) ++ "- text \"" ++ content ++ "\""] }
        else st
      runLines compact maxDepth rest st2
    else
      let indent := indentLevel line
      if indent > maxDepth then runLines compact maxDepth rest st
      else
        match matchLine line with
        | none =>
          let st2 :=
            if !compact && ("- ").data.isPrefixOf stripped.data then
              { st with outLines := st.outLines ++ [line] }
            else st
          runLines compact maxDepth rest st2
        | some m =>
          let role := lowerStr m.role
          let name := m.name
          let attrs := m.attrs.foldl (fun d p => aset d p.1 p.2) []
          let isInteractive := INTERACTIVE_ROLES.contains role
          let isContent := CONTENT_ROLES.contains role
          let isStructural := STRUCTURAL_ROLES.contains role
          if compact && isStructural && !nameTruthy name then
            runLines compact maxDepth rest st
          else if isInteractive || (isContent && nameTruthy name) then
            let refTok := "e" ++ natStr (st.counter + 1)
            let (nth, tr2) := nextIndex st.tracker role name
            let tr3 := trackRef tr2 role name refTok
            let entry : RefData :=
              { role := role, name := name,
                selector := build_selector role name, nth := some nth }
            let refs2 := aset st.refs ("@" ++ refTok) entry
            let base := indentSpaces indent ++ "- " ++ role
            let withName :=
              if nameTruthy name then base ++ " \"" ++ name.getD "" ++ "\"" else base
            let lineOut := attrParts (withName ++ " @" ++ refTok) attrs
            runLines compact maxDepth rest
              { counter := st.counter + 1, refs := refs2, tracker := tr3,
                outLines := st.outLines ++ [lineOut] }
          else
            let base := indentSpaces indent ++ "- " ++ role
            let withName :=
              if nameTruthy name then base ++ " \"" ++ name.getD "" ++ "\"" else base
            let lineOut := attrParts withName attrs
            runLines compact maxDepth rest { st with outLines := st.outLines ++ [lineOut] }

/-- The post-pass that removes `nth` from refs whose `(role, name)` key has
a single occurrence. -/
def cleanupNth (t : Tracker) (refs : List (String × RefData)) :
    List (String × RefData) :=
  refs.map (fun p =>
    if isDupKey t (trackerKey p.2.role p.2.name) then p
    else (p.1, { p.2 with nth := none }))

/-- Python `str.splitlines()` restricted to `\n` separators (the only ones
the ARIA text uses); the extra trailing empty segment this produces is
skipped by the blank-line test. -/
def splitLinesAux : List Char → List Char → List String
  | [], acc => [String.mk acc.reverse]
  | '\n' :: rest, acc => String.mk acc.reverse :: splitLinesAux rest []
  | c :: rest, acc => splitLinesAux rest (c :: acc)

/-- Split a raw ARIA text into lines. -/
def splitLines (s : String) : List String := splitLinesAux s.data []

/-- `"\n".join(out_lines)`. -/
def joinLines : List String → String
  | [] => ""
  | [l] => l
  | l :: rest => l ++ "\n" ++ joinLines rest

/-- `process_aria_text(raw, compact, max_depth, counter)`: returns the
annotated tree text, the ref map and the final counter. -/
def process_aria_text (raw : String) (compact : Bool) (maxDepth : Nat)
    (counter0 : Nat) : String × List (String × RefData) × Nat :=
  let st0 : PState :=
    { counter := counter0, refs := [],
      tracker := { counts := [], refsByKey := [] }, outLines := [] }
  let st := runLines compact maxDepth (splitLines raw) st0
  (joinLines st.outLines, cleanupNth st.tracker st.refs, st.counter)

/-- One element returned by `_find_cursor_interactive` (text already
trimmed, non-empty and deduplicated by the in-page script). -/
structure CursorEl where
  text : String
  selector : String
  cursor_pointer : Bool
deriving DecidableEq

/-- The cursor-interactive append loop of `take_snapshot`; the counter
continues from the ARIA pass and `existingNames` is fixed before the loop. -/
def cursorLoop (existingNames : List String) :
    List CursorEl → (List (String × RefData)) × String × Nat →
    (List (String × RefData)) × String × Nat
  | [], acc => acc
  | el :: rest, (refs, tree, counter) =>
    if existingNames.contains (lowerStr el.text) then
      cursorLoop existingNames rest (refs, tree, counter)
    else
      let refTok := "e" ++ natStr (counter + 1)
      let role := if el.cursor_pointer then "clickable" else "focusable"
      let entry : RefData :=
        { role := role, name := some el.text, selector := el.selector, nth := none }
      cursorLoop existingNames rest
        (aset refs ("@" ++ refTok) entry,
         tree ++ "\n- [cursor-interactive] \"" ++ el.text ++ "\" @" ++ refTok,
         counter + 1)

/-- Snapshot result dict. -/
structure SnapshotResult where
  success : Bool
  tree : String
  refs : List (String × RefData)
  url : String
  title : String
  tab_count : Nat
  error : Option String

/-- `take_snapshot`.  The browser round trips enter as data: `aria` is the
`aria_snapshot()` outcome (`Except.error` models the raised exception),
`cursorEls` the `_find_cursor_interactive` result, `url`/`title`/tab info
the page state. -/
def take_snapshot (aria : Except String String) (cursorEls : List CursorEl)
    (cursorInteractive : Bool) (compact : Bool) (maxDepth : Nat)
    (url title : String) (tabIndex tabCount : Nat) : SnapshotResult :=
  match aria with
  | .error e =>
    { success := false, tree := "", refs := [], url := url, title := title,
      tab_count := tabCount, error := some ("ARIA snapshot failed: " ++ e) }
  | .ok raw =>
    if raw.data.isEmpty then
      { success := false, tree := "", refs := [], url := url, title := title,
        tab_count := tabCount,
        error := some ("Empty ARIA snapshot — page may still be loading.") }
    else
      let pr := process_aria_text raw compact maxDepth 0
      let withCursor :=
        if cursorInteractive then
          let existingNames := pr.2.1.filterMap (fun p =>
            if nameTruthy p.2.name then some (lowerStr (p.2.name.getD "")) else none)
          cursorLoop existingNames cursorEls (pr.2.1, pr.1, pr.2.2)
        else (pr.2.1, pr.1, pr.2.2)
      let header := "Page: " ++ url ++ " | Title: " ++ title ++ "\nTab " ++
        natStr tabIndex ++ " of " ++ natStr tabCount ++ "\n\n"
      { success := true, tree := header ++ withCursor.2.1, refs := withCursor.1,
        url := url, title := title, tab_count := tabCount, error := none }

/-- The ref key `@eK` for counter value `K`, exactly as the source builds it
(`f"e{c}"` then `f"@{ref}"`). -/
def refKeyStr (k : Nat) : String := "@" ++ ("e" ++ natStr k)

/-- The expected key sequence `@e(start+1) .. @e(start+n)`. -/
def refKeyRange (start n : Nat) : List String :=
  (List.range' (start + 1) n).map refKeyStr

end Snap

namespace Diff

/-! ## Snapshot diffing.

Modelled from the spec: the diff engine that remembers the previous
snapshot's refs per session and reports `new_element_count`,
`changed_element_count` and `removed_element_count` (with `*` markers on
new/changed tree lines) is part of the repository's snapshot layer that is
not present under `scripts/snapshot.py` as shipped (`browser_engine.close`
imports its `clear_previous_refs` and the end-to-end tests read the three
count fields).  Definitions below follow §4.3 "Diffing" of the spec: refs
are keyed by `(role, name, nth?)`; new = current refs whose key is not in
the previous map, removed = previous keys absent now, changed = keys
present in both whose locator or role differs; new and changed lines are
prefixed with `*`. -/

/-- The `(role, name, nth?)` diff key of one ref. -/
def refKeyOf (d : RefData) : String × Option String × Option Nat :=
  (d.role, d.name, d.nth)

/-- A ref map re-keyed by its diff key. -/
def keyedOf (refs : List (String × RefData)) :
    List ((String × Option String × Option Nat) × RefData) :=
  refs.map (fun p => (refKeyOf p.2, p.2))

/-- The three diff counters. -/
structure DiffCounts where
  newCount : Nat
  removedCount : Nat
  changedCount : Nat
deriving DecidableEq

/-- Keys present in both snapshots whose stored locator or role differs. -/
def changedKeys (prevK currK : List ((String × Option String × Option Nat) × RefData)) :
    List (String × Option String × Option Nat) :=
  (currK.map Prod.fst).dedup.filter (fun k =>
    match alookup prevK k, alookup currK k with
    | some a, some b => decide (a.selector ≠ b.selector ∨ a.role ≠ b.role)
    | _, _ => false)

/-- The diff of two consecutive ref maps. -/
def snapshotDiff (prev curr : List (String × RefData)) : DiffCounts :=
  let prevK := keyedOf prev
  let currK := keyedOf curr
  { newCount := (curr.filter (fun p => (alookup prevK (refKeyOf p.2)).isNone)).length,
    removedCount :=
      ((prevK.map Prod.fst).dedup.filter (fun k => (alookup currK k).isNone)).length,
    changedCount := (changedKeys prevK currK).length }

/-- One rendered tree line for a ref (tree lines always start with `- `). -/
def renderRef (p : String × RefData) : String := "- " ++ p.2.role ++ " " ++ p.1

/-- The diff-annotated tree: new and changed lines get a `*` marker. -/
def diffTree (prev curr : List (String × RefData)) : List String :=
  let prevK := keyedOf prev
  let currK := keyedOf curr
  let ch := changedKeys prevK currK
  curr.map (fun p =>
    if (alookup prevK (refKeyOf p.2)).isNone ∨ refKeyOf p.2 ∈ ch then
      "* " ++ renderRef p
    else renderRef p)

end Diff

/-! ## Helper lemmas: decimal rendering -/

theorem toNat_decDigit (d : Nat) (h : d < 10) : (decDigit d).toNat = 48 + d := by
  interval_cases d <;> decide

theorem decVal_append (l : List Char) (c : Char) :
    decVal (l ++ [c]) = (decVal l) * 10 + (c.toNat - 48) := by
  simp [decVal, List.foldl_append]

theorem decVal_decCharsAux :
    ∀ fuel n, n < fuel → decVal (decCharsAux fuel n) = n := by
  intro fuel
  induction fuel with
  | zero => intro n h; omega
  | succ f ih =>
    intro n h
    unfold decCharsAux
    by_cases h10 : n < 10
    · simp only [h10, if_true]
      simp [decVal, toNat_decDigit n h10]
    · simp only [h10, if_false]
      have hdiv : n / 10 < n := Nat.div_lt_self (by omega) (by omega)
      rw [decVal_append, ih (n / 10) (by omega),
        toNat_decDigit (n % 10) (Nat.mod_lt _ (by omega))]
      omega

theorem decVal_decChars (n : Nat) : decVal (decChars n) = n :=
  decVal_decCharsAux (n + 1) n (Nat.lt_succ_self n)

theorem decChars_inj {m n : Nat} (h : decChars m = decChars n) : m = n := by
  have := congrArg decVal h
  rwa [decVal_decChars, decVal_decChars] at this

theorem natStr_inj {m n : Nat} (h : natStr m = natStr n) : m = n := by
  apply decChars_inj
  have := congrArg String.data h
  simpa [natStr] using this

/-! ## Helper lemmas: association lists -/

theorem mem_keys_of_alookup_isSome {κ α : Type} [DecidableEq κ] :
    ∀ (d : List (κ × α)) (k : κ), (alookup d k).isSome = true → k ∈ d.map Prod.fst := by
  intro d
  induction d with
  | nil => intro k h; simp [alookup] at h
  | cons p rest ih =>
    intro k h
    by_cases hk : p.1 = k
    · simp [hk]
    · simp only [alookup, hk, if_false] at h
      simp [ih k h]

theorem alookup_isSome_of_mem_keys {κ α : Type} [DecidableEq κ] :
    ∀ (d : List (κ × α)) (k : κ), k ∈ d.map Prod.fst → (alookup d k).isSome = true := by
  intro d
  induction d with
  | nil => intro k h; simp at h
  | cons p rest ih =>
    intro k h
    by_cases hk : p.1 = k
    · simp [alookup, hk]
    · simp only [List.map_cons, List.mem_cons] at h
      rcases h with h | h
      · exact absurd h.symm hk
      · simp only [alookup, hk, if_false]
        exact ih k h

theorem mem_keys_of_alookup_eq_some {κ α : Type} [DecidableEq κ]
    (d : List (κ × α)) (k : κ) (v : α) (h : alookup d k = some v) :
    k ∈ d.map Prod.fst :=
  mem_keys_of_alookup_isSome d k (by simp [h])

theorem aset_of_not_mem {κ α : Type} [DecidableEq κ]
    (d : List (κ × α)) (k : κ) (v : α) (h : amem d k = false) :
    aset d k v = d ++ [(k, v)] := by
  simp [aset, h]

theorem alookup_aset_self {κ α : Type} [DecidableEq κ] :
    ∀ (d : List (κ × α)) (k : κ) (v : α), alookup (aset d k v) k = some v := by
  intro d k v
  by_cases hm : amem d k
  · simp only [aset, hm, if_true]
    induction d with
    | nil => simp [amem, alookup] at hm
    | cons p rest ih =>
      by_cases hk : p.1 = k
      · simp [alookup, hk]
      · simp only [List.map_cons]
        simp only [amem, alookup, hk, if_false] at hm
        simp only [alookup, hk, if_false]
        exact ih hm
  · simp only [aset, hm, Bool.false_eq_true, if_false]
    induction d with
    | nil => simp [alookup]
    | cons p rest ih =>
      by_cases hk : p.1 = k
      · exfalso
        simp [amem, alookup, hk] at hm
      · simp only [amem, alookup, hk, if_false] at hm
        simp only [List.cons_append, alookup, hk, if_false]
        exact ih hm

theorem map_fst_aset_of_mem {κ α : Type} [DecidableEq κ]
    (d : List (κ × α)) (k : κ) (v : α) (h : amem d k = true) :
    (aset d k v).map Prod.fst = d.map Prod.fst := by
  simp only [aset, h, if_true, List.map_map]
  apply List.map_congr_left
  intro p _
  by_cases hk : p.1 = k <;> simp [hk]

theorem not_mem_map_fst_adrop {κ α : Type} [DecidableEq κ]
    (d : List (κ × α)) (k : κ) : k ∉ (adrop d k).map Prod.fst := by
  intro h
  simp only [adrop, List.mem_map] at h
  rcases h with ⟨p, hp, hk⟩
  rw [List.mem_filter] at hp
  rcases hp with ⟨-, hne⟩
  simp [hk] at hne

/-! ## Helper lemmas: prefixes and ranges -/

theorem isPrefixOf_append_right {α : Type} [BEq α] [LawfulBEq α]
    (l t : List α) : l.isPrefixOf (l ++ t) = true := by
  induction l with
  | nil => simp [List.isPrefixOf]
  | cons c cs ih => simp [List.isPrefixOf, ih]

theorem isPrefixOf_self_list {α : Type} [BEq α] [LawfulBEq α]
    (l : List α) : l.isPrefixOf l = true := by
  have h := isPrefixOf_append_right l []
  rwa [List.append_nil] at h

theorem range'_one_concat (s n : Nat) :
    List.range' s (n + 1) = List.range' s n ++ [s + n] := by
  have h := @List.range'_concat 1 s n
  simpa using h

theorem nodup_range'_one (s n : Nat) : (List.range' s n).Nodup :=
  List.nodup_range' s n 1 (by norm_num)

/-! ## Claim C5: rate-limit pattern selection -/

theorem getLimitLoop_first_match (domain : String) :
    ∀ (l1 : List (String × Nat)) (p : String × Nat) (l2 : List (String × Nat)),
      (p.1 ≠ "default" ∧ RateLim.substrOf p.1 domain = true) →
      (∀ q ∈ l1, ¬(q.1 ≠ "default" ∧ RateLim.substrOf q.1 domain = true)) →
      RateLim.getLimitLoop (l1 ++ p :: l2) domain = some p.2 := by
  intro l1
  induction l1 with
  | nil =>
    intro p l2 hp _
    simp [RateLim.getLimitLoop, hp]
  | cons q rest ih =>
    intro p l2 hp hnone
    have hq : ¬(q.1 ≠ "default" ∧ RateLim.substrOf q.1 domain = true) :=
      hnone q (List.mem_cons_self q rest)
    simp only [List.cons_append, RateLim.getLimitLoop, hq, if_false]
    exact ih p l2 hp (fun r hr => hnone r (List.mem_cons_of_mem q hr))

theorem getLimitLoop_no_match (domain : String) :
    ∀ (limits : List (String × Nat)),
      (∀ q ∈ limits, ¬(q.1 ≠ "default" ∧ RateLim.substrOf q.1 domain = true)) →
      RateLim.getLimitLoop limits domain = none := by
  intro limits
  induction limits with
  | nil => intro _; rfl
  | cons q rest ih =>
    intro h
    have hq := h q (List.mem_cons_self q rest)
    simp only [RateLim.getLimitLoop, hq, if_false]
    exact ih (fun r hr => h r (List.mem_cons_of_mem q hr))

/-- C5 (counterexample): with the policy table
`{"default": 8, "a.com": 1, "bba.com": 2}` and domain `"bba.com"`, both
non-default patterns occur as substrings of the domain; the code applies
the first matching entry (`"a.com"` → 1) while the most specific matching
pattern is `"bba.com"` with quota 2, so the claim fails on this input. -/
theorem C5_counterexample :
    RateLim.getLimit [("default", 8), ("a.com", 1), ("bba.com", 2)] "bba.com" = 1 ∧
    RateLim.specLimit [("default", 8), ("a.com", 1), ("bba.com", 2)] "bba.com" = 2 ∧
    (1 : Nat) ≠ 2 := by
  refine ⟨by decide, by decide, by decide⟩

/-- C5 (amended): the quota applied is that of the FIRST non-default
pattern of the table (in insertion order) occurring as a substring of the
domain; the `"default"` entry (or 8 when absent) is used exactly when no
non-default pattern matches. -/
theorem C5_first_match_wins (limits : List (String × Nat)) (domain : String) :
    (∀ (l1 : List (String × Nat)) (p : String × Nat) (l2 : List (String × Nat)),
      limits = l1 ++ p :: l2 →
      (p.1 ≠ "default" ∧ RateLim.substrOf p.1 domain = true) →
      (∀ q ∈ l1, ¬(q.1 ≠ "default" ∧ RateLim.substrOf q.1 domain = true)) →
      RateLim.getLimit limits domain = p.2) ∧
    ((∀ q ∈ limits, ¬(q.1 ≠ "default" ∧ RateLim.substrOf q.1 domain = true)) →
      RateLim.getLimit limits domain = (alookup limits "default").getD 8) := by
  constructor
  · intro l1 p l2 heq hp hnone
    rw [RateLim.getLimit, heq, getLimitLoop_first_match domain l1 p l2 hp hnone]
  · intro h
    rw [RateLim.getLimit, getLimitLoop_no_match domain limits h]

/-- C5 witness: on the shipped table, domain `"www.linkedin.com"` matches
the first non-default pattern `"linkedin.com"` and gets quota 4; domain
`"example.org"` matches nothing and falls back to the default quota 8. -/
theorem C5_first_match_wins_witness :
    RateLim.getLimit Cfg.SENSITIVE_RATE_LIMITS "www.linkedin.com" = 4 ∧
    RateLim.getLimit Cfg.SENSITIVE_RATE_LIMITS "example.org" = 8 := by
  constructor
  · exact (C5_first_match_wins Cfg.SENSITIVE_RATE_LIMITS "www.linkedin.com").1
      [("default", 8)] ("linkedin.com", 4)
      [("facebook.com", 5), ("twitter.com", 6), ("x.com", 6), ("instagram.com", 4)]
      (by decide) (by decide) (by decide)
  · exact (C5_first_match_wins Cfg.SENSITIVE_RATE_LIMITS "example.org").2 (by decide)

/-! ## Claim C8: profile-name validation and path containment -/

theorem resolvePath_concat_normal (base : List String) (c : String)
    (h1 : c ≠ ".") (h2 : c ≠ "..") :
    Cfg.resolvePath (base ++ [c]) = Cfg.resolvePath base ++ [c] := by
  simp [Cfg.resolvePath, List.foldl_append, h1, h2]

theorem resolvePath_concat_dot (base : List String) :
    Cfg.resolvePath (base ++ ["."]) = Cfg.resolvePath base := by
  simp [Cfg.resolvePath, List.foldl_append]

theorem validate_rejects_dotdot (n : String)
    (h : infixOfL ("..").data n.data = true) :
    (Cfg.validate_profile_name n).isSome = true := by
  unfold Cfg.validate_profile_name
  by_cases he : n.data.isEmpty
  · simp [he]
  · simp only [he, Bool.false_eq_true, if_false]
    by_cases hre : Cfg.regexMatchName n
    · simp [hre, h]
    · simp [hre]

theorem validate_rejects_absolute (n : String)
    (h : ("/").data.isPrefixOf n.data = true) :
    (Cfg.validate_profile_name n).isSome = true := by
  unfold Cfg.validate_profile_name
  by_cases he : n.data.isEmpty
  · simp [he]
  · simp only [he, Bool.false_eq_true, if_false]
    by_cases hre : Cfg.regexMatchName n
    · simp [hre, h]
    · simp [hre]

theorem valid_name_ne_dotdot (n : String)
    (h : Cfg.validate_profile_name n = none) : n ≠ ".." := by
  intro heq
  subst heq
  revert h
  decide

/-- C8: profile-name validation rejects `"../x"`, `"x/y"`, `"x\y"`, the
empty string, `"x y"`, every name containing `".."` and every absolute
(slash-led) path; and every name that validates resolves to a path below
the profile base directory (path resolution modelled lexically; the base is
resolved first, exactly as `safe_profile_path` does). -/
theorem C8_profile_validation :
    (Cfg.validate_profile_name "../x").isSome = true ∧
    (Cfg.validate_profile_name "x/y").isSome = true ∧
    (Cfg.validate_profile_name "x\\y").isSome = true ∧
    (Cfg.validate_profile_name "").isSome = true ∧
    (Cfg.validate_profile_name "x y").isSome = true ∧
    (∀ n : String, infixOfL ("..").data n.data = true →
      (Cfg.validate_profile_name n).isSome = true) ∧
    (∀ n : String, ("/").data.isPrefixOf n.data = true →
      (Cfg.validate_profile_name n).isSome = true) ∧
    (∀ (base : List String) (n : String),
      Cfg.validate_profile_name n = none →
      Cfg.safe_profile_path base n = some (Cfg.resolvePath (base ++ [n])) ∧
      (Cfg.resolvePath base).isPrefixOf (Cfg.resolvePath (base ++ [n])) = true) := by
  refine ⟨by decide, by decide, by decide, by decide, by decide,
    validate_rejects_dotdot, validate_rejects_absolute, ?_⟩
  intro base n hv
  have hdd : n ≠ ".." := valid_name_ne_dotdot n hv
  have hpre : (Cfg.resolvePath base).isPrefixOf (Cfg.resolvePath (base ++ [n])) = true := by
    by_cases hdot : n = "."
    · subst hdot
      rw [resolvePath_concat_dot]
      exact isPrefixOf_self_list _
    · rw [resolvePath_concat_normal base n hdot hdd]
      exact isPrefixOf_append_right _ _
  constructor
  · unfold Cfg.safe_profile_path
    simp [hv, hpre]
  · exact hpre

/-- C8 witness: concrete rejections through the universally quantified
conjuncts, and a concrete accepted name that resolves under the base. -/
theorem C8_profile_validation_witness :
    (Cfg.validate_profile_name "a..b").isSome = true ∧
    (Cfg.validate_profile_name "/etc/passwd").isSome = true ∧
    Cfg.safe_profile_path ["root", ".browser-use", "profiles"] "alice" =
      some ["root", ".browser-use", "profiles", "alice"] := by
  refine ⟨C8_profile_validation.2.2.2.2.2.1 "a..b" (by decide),
    C8_profile_validation.2.2.2.2.2.2.1 "/etc/passwd" (by decide), ?_⟩
  have h := (C8_profile_validation.2.2.2.2.2.2.2 ["root", ".browser-use", "profiles"]
    "alice" (by decide)).1
  rw [h]
  decide

/-! ## Claim C9: FSM epoch discipline -/

/-- C9 (counterexample): the FSM enters ESCALATING from EVALUATING through
a validated transition and the epoch stays 0 instead of incrementing to 1;
entering RECOVERING through a force-transition also preserves the epoch. -/
theorem C9_counterexample :
    Fsm.transition ⟨.EVALUATING, 0, none, 0⟩ .ESCALATING 5 =
      some ⟨.ESCALATING, 5, none, 0⟩ ∧
    (Fsm.applyOp ⟨.EVALUATING, 0, none, 0⟩ (.trans .ESCALATING 5)).epoch ≠ 0 + 1 ∧
    (Fsm.forceTransition ⟨.ACTING, 0, some 30000, 0⟩ .RECOVERING 9).epoch ≠ 0 + 1 := by
  refine ⟨by decide, by decide, by decide⟩

/-- C9 (amended): the epoch is incremented (by exactly one) only by
`bump_epoch`, the operation the source designates for abort, tier
escalation and recovery; validated and forced transitions preserve it, and
consequently the epoch never decreases across any sequence of FSM
operations. -/
theorem C9_epoch_discipline :
    (∀ s : Fsm.FSMState, (Fsm.bump_epoch s).epoch = s.epoch + 1) ∧
    (∀ (s : Fsm.FSMState) (t : Fsm.StateName) (now : Nat) (s2 : Fsm.FSMState),
      Fsm.transition s t now = some s2 → s2.epoch = s.epoch) ∧
    (∀ (s : Fsm.FSMState) (t : Fsm.StateName) (now : Nat),
      (Fsm.forceTransition s t now).epoch = s.epoch) ∧
    (∀ (s : Fsm.FSMState) (ops : List Fsm.FsmOp),
      s.epoch ≤ (Fsm.applyOps s ops).epoch) := by
  have hstep : ∀ (s : Fsm.FSMState) (op : Fsm.FsmOp),
      s.epoch ≤ (Fsm.applyOp s op).epoch := by
    intro s op
    cases op with
    | trans t now =>
      simp only [Fsm.applyOp, Fsm.transition]
      by_cases hv : Fsm.is_valid_transition s.name t
      · simp [hv, Fsm.setState]
      · simp [hv]
    | force t now => simp [Fsm.applyOp, Fsm.forceTransition, Fsm.setState]
    | bump => simp [Fsm.applyOp, Fsm.bump_epoch]
  refine ⟨fun s => rfl, ?_, fun s t now => rfl, ?_⟩
  · intro s t now s2 h
    unfold Fsm.transition at h
    by_cases hv : Fsm.is_valid_transition s.name t
    · rw [if_pos hv] at h
      cases h
      rfl
    · rw [if_neg hv] at h
      cases h
  · intro s ops
    induction ops generalizing s with
    | nil => exact Nat.le_refl _
    | cons op rest ih =>
      calc s.epoch ≤ (Fsm.applyOp s op).epoch := hstep s op
        _ ≤ (Fsm.applyOps (Fsm.applyOp s op) rest).epoch := ih _

/-- C9 witness: concrete instances of each conjunct of the amended claim. -/
theorem C9_epoch_discipline_witness :
    (Fsm.bump_epoch ⟨.ACTING, 7, some 30000, 3⟩).epoch = 4 ∧
    (⟨.LAUNCHING, 1, some 60000, 7⟩ : Fsm.FSMState).epoch =
      (⟨.IDLE, 0, none, 7⟩ : Fsm.FSMState).epoch ∧
    (⟨.IDLE, 0, none, 2⟩ : Fsm.FSMState).epoch ≤
      (Fsm.applyOps ⟨.IDLE, 0, none, 2⟩ [.trans .LAUNCHING 1, .bump, .force .ERROR 4]).epoch := by
  refine ⟨C9_epoch_discipline.1 _, ?_, C9_epoch_discipline.2.2.2 _ _⟩
  exact C9_epoch_discipline.2.1 ⟨.IDLE, 0, none, 7⟩ .LAUNCHING 1 _ (by decide)

/-! ## Claim C6: close vs. the session list -/

/-- C6 (counterexample): `close` on an id absent from the registry returns
an error, yet the id does not appear in the session list afterwards, so
"success iff absent from the list" fails for unknown ids. -/
theorem C6_counterexample :
    ¬(((Engine.close [] "x" none).2.success = true) ↔
      ("x" ∉ Engine.sessionIds (Engine.close [] "x" none).1)) := by
  decide

/-- C6 (amended): for every session id PRESENT in the registry, `close`
returns success iff the session no longer appears in the session list
afterwards; and when tier teardown raises, `close` returns the error while
the session is still present with its `closing` flag reset to `false`. -/
theorem C6_close_semantics (reg : List (String × Engine.SessionRec))
    (sid : String) (td : Option String) (s : Engine.SessionRec)
    (h : alookup reg sid = some s) :
    (((Engine.close reg sid td).2.success = true) ↔
      sid ∉ Engine.sessionIds (Engine.close reg sid td).1) ∧
    (∀ msg, s.hasTierImpl = true → td = some msg →
      (Engine.close reg sid td).2.success = false ∧
      alookup (Engine.close reg sid td).1 sid = some { s with closing := false }) := by
  have hfail : (s.hasTierImpl && td.isSome) = true →
      Engine.close reg sid td =
        (aset (aset reg sid { s with closing := true }) sid { s with closing := false },
         { success := false, error := some ("Teardown failed: " ++ td.getD "") }) := by
    intro hc
    simp [Engine.close, h, hc]
  have hok : (s.hasTierImpl && td.isSome) = false →
      Engine.close reg sid td =
        (adrop (aset reg sid { s with closing := true }) sid,
         { success := true, error := none }) := by
    intro hc
    simp [Engine.close, h, hc]
  cases hcond : (s.hasTierImpl && td.isSome) with
  | true =>
    rw [hfail hcond]
    constructor
    · have hmem : sid ∈ (aset (aset reg sid { s with closing := true }) sid
          { s with closing := false }).map Prod.fst :=
        mem_keys_of_alookup_eq_some _ _ _ (alookup_aset_self _ _ _)
      exact iff_of_false (by simp) (by simp [Engine.sessionIds, hmem])
    · intro msg _ htd
      exact ⟨rfl, alookup_aset_self _ _ _⟩
  | false =>
    rw [hok hcond]
    constructor
    · exact iff_of_true rfl (not_mem_map_fst_adrop _ _)
    · intro msg hti htd
      rw [hti, htd] at hcond
      simp at hcond

/-- C6 witness: a one-session registry; teardown failure keeps the session
with `closing=false`, and a successful close empties the list. -/
theorem C6_close_semantics_witness :
    (Engine.close [("s1", ⟨false, true⟩)] "s1" (some "boom")).2.success = false ∧
    alookup (Engine.close [("s1", ⟨false, true⟩)] "s1" (some "boom")).1 "s1" =
      some ⟨false, true⟩ ∧
    (((Engine.close [("s1", ⟨false, true⟩)] "s1" none).2.success = true) ↔
      "s1" ∉ Engine.sessionIds (Engine.close [("s1", ⟨false, true⟩)] "s1" none).1) := by
  have h1 := (C6_close_semantics [("s1", ⟨false, true⟩)] "s1" (some "boom")
    ⟨false, true⟩ (by decide)).2 "boom" rfl rfl
  have h2 := (C6_close_semantics [("s1", ⟨false, true⟩)] "s1" none
    ⟨false, true⟩ (by decide)).1
  exact ⟨h1.1, h1.2, h2⟩

/-! ## Claim C7: credential resolution -/

/-- C7 (counterexample): with credentials `{a: "1", b: "2"}` the input
`<secret>a</secret>+<secret>b</secret>` resolves to `"1+1"` — `re.sub`
replaces BOTH tags with the value of the FIRST tag's key — while the claim
(each tag replaced with its own key's value) predicts `"1+2"`. -/
theorem C7_counterexample :
    Creds.resolve_credential [("a", "1"), ("b", "2")]
      "<secret>a</secret>+<secret>b</secret>" = "1+1" ∧
    Creds.resolveSpec [("a", "1"), ("b", "2")]
      "<secret>a</secret>+<secret>b</secret>" = "1+2" ∧
    ("1+1" : String) ≠ "1+2" := by
  refine ⟨by decide, by decide, by decide⟩

theorem findTag_none_of_no_lt :
    ∀ cs : List Char, (cs.all fun c => c ≠ '<') = true → Creds.findTag cs = none := by
  intro cs
  induction cs with
  | nil => intro _; rfl
  | cons c rest ih =>
    intro h
    rw [List.all_cons] at h
    rcases Bool.and_eq_true_iff.mp h with ⟨hc, hrest⟩
    have hcne : c ≠ '<' := by simpa using hc
    have hmt : Creds.matchTag (c :: rest) = none := by
      simp [Creds.matchTag, Creds.openTag, Creds.stripPre, hcne]
    simp [Creds.findTag, hmt, ih hrest]

/-- C7 (amended): with a non-empty credential store, an input whose first
tag `<secret>k</secret>` has a stored key `k` has EVERY tag occurrence
replaced by the value stored under that first key; if the first key is
unknown the input is returned unchanged (even when later tags have known
keys); an input without any tag is replaced by its stored value exactly
when the whole input equals a stored key; inputs containing no `<` have no
tag; and an empty store returns every input unchanged. -/
theorem C7_resolution_semantics (creds : List (String × String)) (value : String) :
    (creds.isEmpty = true → Creds.resolve_credential creds value = value) ∧
    (∀ k, creds.isEmpty = false → Creds.findTag value.data = some k →
      Creds.resolve_credential creds value =
        (match alookup creds (String.mk k) with
         | some secret => String.mk (Creds.subAll secret.data value.data)
         | none => value)) ∧
    (creds.isEmpty = false → Creds.findTag value.data = none →
      Creds.resolve_credential creds value =
        (match alookup creds value with
         | some secret => secret
         | none => value)) ∧
    ((value.data.all fun c => c ≠ '<') = true → Creds.findTag value.data = none) := by
  refine ⟨?_, ?_, ?_, findTag_none_of_no_lt value.data⟩
  · intro h
    simp [Creds.resolve_credential, h]
  · intro k hne hf
    simp [Creds.resolve_credential, hne, hf]
  · intro hne hf
    simp [Creds.resolve_credential, hne, hf]

/-- C7 witness: a single known tag resolves to the stored secret. -/
theorem C7_resolution_semantics_witness :
    Creds.resolve_credential [("pw", "hunter2")] "<secret>pw</secret>" = "hunter2" := by
  have h := (C7_resolution_semantics [("pw", "hunter2")] "<secret>pw</secret>").2.1
    ['p', 'w'] (by decide) (by decide)
  rw [h]
  decide

/-! ## Claim C10: self-similarity of page fingerprints -/

/-- C10 (counterexample): `from_snapshot` applied to a ref map with two
refs sharing the same `role:name:nth` descriptor yields a fingerprint with
a non-empty `top_ref_keys` tuple whose self-similarity is 17/20, not 1: the
overlap is computed on the deduplicated key set while the denominator is
the tuple length with duplicates. -/
theorem C10_counterexample :
    (Models.from_snapshot "u"
      [("@e1", ⟨"button", none, "s1", none⟩), ("@e2", ⟨"button", none, "s2", none⟩)]
      1).top_ref_keys ≠ [] ∧
    Models.similarity
      (Models.from_snapshot "u"
        [("@e1", ⟨"button", none, "s1", none⟩), ("@e2", ⟨"button", none, "s2", none⟩)] 1)
      (Models.from_snapshot "u"
        [("@e1", ⟨"button", none, "s1", none⟩), ("@e2", ⟨"button", none, "s2", none⟩)] 1)
      ≠ 1 := by
  have hfp : Models.from_snapshot "u"
      [("@e1", ⟨"button", none, "s1", none⟩), ("@e2", ⟨"button", none, "s2", none⟩)] 1 =
      ⟨"u", 2, 1, ["button::", "button::"]⟩ := by decide
  rw [hfp]
  constructor
  · decide
  · have hs : Models.similarity ⟨"u", 2, 1, ["button::", "button::"]⟩
        ⟨"u", 2, 1, ["button::", "button::"]⟩ = 17/20 := by
      norm_num [Models.similarity]
    rw [hs]
    norm_num

/-- C10 (amended): self-similarity is 7/10 (below the 0.8 same-page
threshold) for every fingerprint with an empty `top_ref_keys` tuple, and 1
for every fingerprint whose non-empty `top_ref_keys` tuple has no duplicate
descriptors (float arithmetic modelled exactly over the rationals). -/
theorem C10_self_similarity (fp : Models.PageFingerprint) :
    (fp.top_ref_keys = [] →
      Models.similarity fp fp = 7/10 ∧ Models.similarity fp fp < 8/10) ∧
    (fp.top_ref_keys ≠ [] → fp.top_ref_keys.Nodup →
      Models.similarity fp fp = 1) := by
  constructor
  · intro he
    have h : Models.similarity fp fp = 7/10 := by
      simp only [Models.similarity, he]
      norm_num
    exact ⟨h, by rw [h]; norm_num⟩
  · intro hne hnd
    have hlen : (fp.top_ref_keys.length : ℚ) ≠ 0 := by
      simpa using hne
    simp only [Models.similarity]
    rw [List.dedup_eq_self.mpr hnd]
    rw [List.filter_eq_self.mpr (fun a ha => by simpa using ha)]
    simp only [ne_eq, not_true_eq_false, if_false, eq_self_iff_true, if_true,
      Nat.max_self]
    rw [div_self hlen]
    have hemp : fp.top_ref_keys.isEmpty = false := by
      cases hk : fp.top_ref_keys with
      | nil => exact absurd hk hne
      | cons a l => rfl
    rw [hemp]
    norm_num

/-- C10 witness: concrete fingerprints for both halves of the amendment. -/
theorem C10_self_similarity_witness :
    Models.similarity ⟨"u", 0, 1, []⟩ ⟨"u", 0, 1, []⟩ = 7/10 ∧
    Models.similarity ⟨"u", 1, 1, ["k"]⟩ ⟨"u", 1, 1, ["k"]⟩ = 1 :=
  ⟨((C10_self_similarity ⟨"u", 0, 1, []⟩).1 rfl).1,
   (C10_self_similarity ⟨"u", 1, 1, ["k"]⟩).2 (by decide) (by decide)⟩

/-! ## Claim C4: loop-detector warning condition and severity -/

theorem sevRank_criticalMsg (n : String) (c : Nat) :
    Models.sevRank (Models.criticalMsg n c) = 2 := rfl

theorem sevRank_stuckMsg (n : String) (c : Nat) :
    Models.sevRank (Models.stuckMsg n c) = 1 := rfl

theorem sevRank_warnMsg (n : String) (c : Nat) :
    Models.sevRank (Models.warnMsg n c) = 0 := rfl

/-- C4: for a `record` call carrying a fingerprint, a warning is returned
iff the same action hash occurs at least `threshold` times in the rolling
window (after the append) AND at least `threshold` of those occurrences
carry a fingerprint more than 0.8-similar to the current one; the message
severity is the bracket of the occurrence count (warning at
threshold+0..+1, stuck at +2..+3, critical at +4 and above), and that
bracket is monotone in the count. -/
theorem C4_loop_detection (d : Models.ActionLoopDetector) (name ah : String)
    (f : Models.PageFingerprint) :
    ((Models.ActionLoopDetector.record d name ah (some f)).2.isSome = true ↔
      (d.threshold ≤ Models.hashCount (Models.pushWindow d ah (some f)) ah ∧
       d.threshold ≤ Models.simCount (Models.pushWindow d ah (some f)) ah f)) ∧
    (∀ m, (Models.ActionLoopDetector.record d name ah (some f)).2 = some m →
      Models.sevRank m =
        Models.sevOfCount d.threshold
          (Models.hashCount (Models.pushWindow d ah (some f)) ah)) ∧
    (∀ c c', c ≤ c' →
      Models.sevOfCount d.threshold c ≤ Models.sevOfCount d.threshold c') := by
  refine ⟨?_, ?_, ?_⟩ <;> try (intro c c' hcc; unfold Models.sevOfCount; split_ifs <;> omega)
  all_goals {
    by_cases h1 : Models.hashCount (Models.pushWindow d ah (some f)) ah < d.threshold
    · have hr : (Models.ActionLoopDetector.record d name ah (some f)).2 = none := by
        simp [Models.ActionLoopDetector.record, h1]
      first
      | exact (by rw [hr]; exact iff_of_false (by simp) (fun hc => by omega))
      | exact (fun m hm => by rw [hr] at hm; cases hm)
    · by_cases h2 : Models.simCount (Models.pushWindow d ah (some f)) ah f < d.threshold
      · have hr : (Models.ActionLoopDetector.record d name ah (some f)).2 = none := by
          simp [Models.ActionLoopDetector.record, h1, h2]
        first
        | exact (by rw [hr]; exact iff_of_false (by simp) (fun hc => by omega))
        | exact (fun m hm => by rw [hr] at hm; cases hm)
      · by_cases h3 : d.threshold + 4 ≤ Models.hashCount (Models.pushWindow d ah (some f)) ah
        · have hr : (Models.ActionLoopDetector.record d name ah (some f)).2 =
              some (Models.criticalMsg name
                (Models.hashCount (Models.pushWindow d ah (some f)) ah)) := by
            simp [Models.ActionLoopDetector.record, h1, h2, h3]
          first
          | exact (by rw [hr]; exact iff_of_true rfl ⟨by omega, by omega⟩)
          | exact (fun m hm => by
              rw [hr] at hm
              cases hm
              rw [sevRank_criticalMsg]
              unfold Models.sevOfCount
              rw [if_pos h3])
        · by_cases h4 : d.threshold + 2 ≤ Models.hashCount (Models.pushWindow d ah (some f)) ah
          · have hr : (Models.ActionLoopDetector.record d name ah (some f)).2 =
                some (Models.stuckMsg name
                  (Models.hashCount (Models.pushWindow d ah (some f)) ah)) := by
              simp [Models.ActionLoopDetector.record, h1, h2, h3, h4]
            first
            | exact (by rw [hr]; exact iff_of_true rfl ⟨by omega, by omega⟩)
            | exact (fun m hm => by
                rw [hr] at hm
                cases hm
                rw [sevRank_stuckMsg]
                unfold Models.sevOfCount
                rw [if_neg h3, if_pos h4])
          · have hr : (Models.ActionLoopDetector.record d name ah (some f)).2 =
                some (Models.warnMsg name
                  (Models.hashCount (Models.pushWindow d ah (some f)) ah)) := by
              simp [Models.ActionLoopDetector.record, h1, h2, h3, h4]
            first
            | exact (by rw [hr]; exact iff_of_true rfl ⟨by omega, by omega⟩)
            | exact (fun m hm => by
                rw [hr] at hm
                cases hm
                rw [sevRank_warnMsg]
                unfold Models.sevOfCount
                rw [if_neg h3, if_neg h4]) }

/-- C4 witness: the third `record` of the same action hash on a fingerprint
identical to the recorded ones (similarity 1 > 0.8) returns a warning. -/
theorem C4_loop_detection_witness :
    (Models.ActionLoopDetector.record
      ⟨[("h", some ⟨"u", 1, 1, ["k"]⟩), ("h", some ⟨"u", 1, 1, ["k"]⟩)], 10, 3⟩
      "click" "h" (some ⟨"u", 1, 1, ["k"]⟩)).2.isSome = true := by
  have h1 : Models.similarity ⟨"u", 1, 1, ["k"]⟩ ⟨"u", 1, 1, ["k"]⟩ = 1 := by
    norm_num [Models.similarity]
  have hsim : Models.fpSimOk ⟨"u", 1, 1, ["k"]⟩ (some ⟨"u", 1, 1, ["k"]⟩) = true := by
    simp only [Models.fpSimOk, h1, decide_eq_true_eq]
    norm_num
  refine (C4_loop_detection
    ⟨[("h", some ⟨"u", 1, 1, ["k"]⟩), ("h", some ⟨"u", 1, 1, ["k"]⟩)], 10, 3⟩
    "click" "h" ⟨"u", 1, 1, ["k"]⟩).1.mpr ⟨?_, ?_⟩
  · decide
  · simp [Models.simCount, Models.pushWindow, hsim]

/-! ## Claim C1: the response size cap -/

theorem charCost_letter : Server.charCost 'a' = 1 := rfl

theorem sum_charCost_replicate (n : Nat) :
    ((List.replicate n 'a').map Server.charCost).sum = n := by
  induction n with
  | zero => rfl
  | succ m ih =>
    simp only [List.replicate_succ, List.map_cons, List.sum_cons, ih, charCost_letter]
    omega

theorem escLen_bigErr (n : Nat) : Server.escLen (Server.bigErr n) = n + 2 := by
  show 2 + ((List.replicate n 'a').map Server.charCost).sum = n + 2
  rw [sum_charCost_replicate]
  omega

theorem truncCandidates_oversize (n : Nat) :
    Server.truncCandidates (Server.oversizeErrorResult n) = [] := rfl

theorem truncate_result_oversize (n m : Nat) :
    Server.truncate_result (Server.oversizeErrorResult n) m =
      [("success", .jbool true), ("error", .jstr (Server.bigErr n)),
       ("truncated", .jbool true), ("truncated_fields", .jarrStr []),
       ("original_bytes", .jnat m)] := rfl

theorem serDict_oversize_gt (n : Nat) (h : 100000 < n) :
    Cfg.MAX_SNAPSHOT_BYTES < Server.serDict (Server.oversizeErrorResult n) := by
  simp only [Server.oversizeErrorResult, Server.serDict, Server.serEntry,
    List.map_cons, List.map_nil, List.sum_cons, List.sum_nil, Server.serLen,
    escLen_bigErr, List.length_cons, List.length_nil, Cfg.MAX_SNAPSHOT_BYTES]
  omega

theorem serDict_truncated_oversize_gt (n m : Nat) (h : 100000 < n) :
    Cfg.MAX_SNAPSHOT_BYTES <
      Server.serDict (Server.truncate_result (Server.oversizeErrorResult n) m) := by
  rw [truncate_result_oversize]
  simp only [Server.serDict, Server.serEntry, List.map_cons, List.map_nil,
    List.sum_cons, List.sum_nil, Server.serLen, escLen_bigErr,
    List.length_cons, List.length_nil, Cfg.MAX_SNAPSHOT_BYTES]
  omega

theorem serDict_envelope_gt (n o : Nat) (h : 100000 < n) :
    Cfg.MAX_SNAPSHOT_BYTES < Server.serDict
      [("success", .jbool true), ("error", .jstr (Server.bigErr n)),
       ("truncated", .jbool true), ("original_bytes", .jnat o),
       ("message", .jstr Server.limitMsg)] := by
  simp only [Server.serDict, Server.serEntry, List.map_cons, List.map_nil,
    List.sum_cons, List.sum_nil, Server.serLen, escLen_bigErr,
    List.length_cons, List.length_nil, Cfg.MAX_SNAPSHOT_BYTES]
  omega

/-- C1 (counterexample): a result whose `error` field holds 150000
characters still serializes to more than `MAX_RESPONSE_BYTES` = 100000
bytes after the whole oversize policy has run: the truncation loop skips
the `error` field by design and the minimal envelope preserves it verbatim,
so the final response exceeds the cap. -/
theorem C1_counterexample :
    Cfg.MAX_SNAPSHOT_BYTES <
      Server.serDict (Server.respond (Server.oversizeErrorResult 150000)) := by
  have h0 := serDict_oversize_gt 150000 (by omega)
  have h1 := serDict_truncated_oversize_gt 150000
    (Server.serDict (Server.oversizeErrorResult 150000)) (by omega)
  have hr : Server.respond (Server.oversizeErrorResult 150000) =
      Server.minimalEnvelope
        (Server.truncate_result (Server.oversizeErrorResult 150000)
          (Server.serDict (Server.oversizeErrorResult 150000)))
        (Server.serDict (Server.truncate_result (Server.oversizeErrorResult 150000)
          (Server.serDict (Server.oversizeErrorResult 150000)))) := by
    simp only [Server.respond]
    rw [if_pos h0, if_pos h1]
  rw [hr]
  have hme : Server.minimalEnvelope
      (Server.truncate_result (Server.oversizeErrorResult 150000)
        (Server.serDict (Server.oversizeErrorResult 150000)))
      (Server.serDict (Server.truncate_result (Server.oversizeErrorResult 150000)
        (Server.serDict (Server.oversizeErrorResult 150000)))) =
      [("success", .jbool true), ("error", .jstr (Server.bigErr 150000)),
       ("truncated", .jbool true),
       ("original_bytes", .jnat (Server.serDict
         (Server.truncate_result (Server.oversizeErrorResult 150000)
           (Server.serDict (Server.oversizeErrorResult 150000))))),
       ("message", .jstr Server.limitMsg)] := by
    rw [truncate_result_oversize]
    rfl
  rw [hme]
  exact serDict_envelope_gt 150000 _ (by omega)

/-- C1 (amended): the serialized response is at most `MAX_RESPONSE_BYTES`
whenever the minimal fallback envelope for the result (which preserves
`success` and `error` verbatim) itself fits within the cap; an oversize
`error` field — which the truncation loop deliberately never cuts —
defeats the bound. -/
theorem C1_size_cap (r : List (String × Server.JVal))
    (h : Server.serDict (Server.fallbackEnvelope r) ≤ Cfg.MAX_SNAPSHOT_BYTES) :
    Server.serDict (Server.respond r) ≤ Cfg.MAX_SNAPSHOT_BYTES := by
  simp only [Server.respond]
  by_cases h0 : Server.serDict r > Cfg.MAX_SNAPSHOT_BYTES
  · rw [if_pos h0]
    by_cases h1 : Server.serDict (Server.truncate_result r (Server.serDict r)) >
        Cfg.MAX_SNAPSHOT_BYTES
    · rw [if_pos h1]
      unfold Server.fallbackEnvelope at h
      exact h
    · rw [if_neg h1]
      omega
  · rw [if_neg h0]
    omega

/-- C1 witness: a small result is returned unchanged, and its fallback
envelope fits the cap. -/
theorem C1_size_cap_witness :
    Server.serDict (Server.respond [("success", .jbool true)]) ≤
      Cfg.MAX_SNAPSHOT_BYTES :=
  C1_size_cap [("success", .jbool true)] (by decide)

/-! ## Claim C2: ref-map key numbering -/

theorem refKeyStr_inj {a b : Nat} (h : Snap.refKeyStr a = Snap.refKeyStr b) : a = b := by
  apply decChars_inj
  have hd := congrArg String.data h
  simp only [Snap.refKeyStr, String.data_append] at hd
  simpa [natStr] using hd

theorem fresh_key (c : Nat) (refs : List (String × RefData))
    (h : refs.map Prod.fst = (List.range' 1 c).map Snap.refKeyStr) :
    amem refs (Snap.refKeyStr (c + 1)) = false := by
  cases hm : amem refs (Snap.refKeyStr (c + 1)) with
  | false => rfl
  | true =>
    exfalso
    have hmem := mem_keys_of_alookup_isSome refs (Snap.refKeyStr (c + 1)) hm
    rw [h] at hmem
    rcases List.mem_map.mp hmem with ⟨i, hi, hkey⟩
    have hieq : i = c + 1 := refKeyStr_inj hkey
    subst hieq
    have hlt := (List.mem_range'_1.mp hi).2
    omega

theorem keys_push (c : Nat) (refs : List (String × RefData)) (entry : RefData)
    (h : refs.map Prod.fst = (List.range' 1 c).map Snap.refKeyStr) :
    (aset refs (Snap.refKeyStr (c + 1)) entry).map Prod.fst =
      (List.range' 1 (c + 1)).map Snap.refKeyStr := by
  rw [aset_of_not_mem _ _ _ (fresh_key c refs h), List.map_append, h,
    range'_one_concat]
  simp [Nat.add_comm]

theorem runLines_keys (compact : Bool) (maxDepth : Nat) :
    ∀ (lines : List String) (st : Snap.PState),
      st.refs.map Prod.fst = (List.range' 1 st.counter).map Snap.refKeyStr →
      (Snap.runLines compact maxDepth lines st).refs.map Prod.fst =
        (List.range' 1 (Snap.runLines compact maxDepth lines st).counter).map
          Snap.refKeyStr := by
  intro lines
  induction lines with
  | nil => intro st h; exact h
  | cons line rest ih =>
    intro st h
    rw [Snap.runLines]
    dsimp only
    repeat' split
    all_goals first
      | exact ih _ h
      | exact ih _ (keys_push st.counter st.refs _ h)

theorem cursorLoop_keys (names : List String) :
    ∀ (els : List Snap.CursorEl) (refs : List (String × RefData))
      (tree : String) (c : Nat),
      refs.map Prod.fst = (List.range' 1 c).map Snap.refKeyStr →
      (Snap.cursorLoop names els (refs, tree, c)).1.map Prod.fst =
        (List.range' 1 (Snap.cursorLoop names els (refs, tree, c)).2.2).map
          Snap.refKeyStr := by
  intro els
  induction els with
  | nil => intro refs tree c h; exact h
  | cons el rest ih =>
    intro refs tree c h
    rw [Snap.cursorLoop]
    dsimp only
    split
    · exact ih refs tree c h
    · exact ih _ _ _ (keys_push c refs _ h)

theorem cleanupNth_keys (t : Snap.Tracker) (refs : List (String × RefData)) :
    (Snap.cleanupNth t refs).map Prod.fst = refs.map Prod.fst := by
  unfold Snap.cleanupNth
  rw [List.map_map]
  apply List.map_congr_left
  intro p _
  simp only [Function.comp_apply]
  split
  · rfl
  · rfl

theorem process_aria_keys (raw : String) (compact : Bool) (maxDepth : Nat) :
    (Snap.process_aria_text raw compact maxDepth 0).2.1.map Prod.fst =
      (List.range' 1 (Snap.process_aria_text raw compact maxDepth 0).2.2).map
        Snap.refKeyStr := by
  unfold Snap.process_aria_text
  dsimp only
  rw [cleanupNth_keys]
  exact runLines_keys compact maxDepth (Snap.splitLines raw) _ (by simp)

theorem take_snapshot_keys_aux (refs : List (String × RefData))
    (h : ∃ c, refs.map Prod.fst = (List.range' 1 c).map Snap.refKeyStr) :
    refs.map Prod.fst = Snap.refKeyRange 0 refs.length ∧
    (refs.map Prod.fst).Nodup := by
  rcases h with ⟨c, hw⟩
  have hlen : refs.length = c := by
    have h2 := congrArg List.length hw
    simpa using h2
  constructor
  · show refs.map Prod.fst = (List.range' (0 + 1) refs.length).map Snap.refKeyStr
    rw [hlen]
    exact hw
  · rw [hw]
    exact (nodup_range'_one 1 c).map (fun a b hab => refKeyStr_inj hab)

/-- C2: every successful snapshot's ref map is keyed exactly `@e1 .. @eN`
(N the number of refs), assigned in processing order with no gaps; the
cursor-interactive pass continues the same counter without reset, so all
keys — ARIA and cursor alike — are pairwise distinct and a cursor ref can
never reuse an ARIA ref's key. -/
theorem C2_snapshot_ref_keys (aria : Except String String)
    (cursorEls : List Snap.CursorEl) (ci compact : Bool) (maxDepth : Nat)
    (url title : String) (tabIndex tabCount : Nat)
    (h : (Snap.take_snapshot aria cursorEls ci compact maxDepth url title
      tabIndex tabCount).success = true) :
    (Snap.take_snapshot aria cursorEls ci compact maxDepth url title
      tabIndex tabCount).refs.map Prod.fst =
      Snap.refKeyRange 0
        (Snap.take_snapshot aria cursorEls ci compact maxDepth url title
          tabIndex tabCount).refs.length ∧
    ((Snap.take_snapshot aria cursorEls ci compact maxDepth url title
      tabIndex tabCount).refs.map Prod.fst).Nodup := by
  apply take_snapshot_keys_aux
  cases aria with
  | error e => simp [Snap.take_snapshot] at h
  | ok raw =>
    cases hraw : raw.data.isEmpty with
    | true => simp [Snap.take_snapshot, hraw] at h
    | false =>
      cases hci : ci with
      | false =>
        refine ⟨(Snap.process_aria_text raw compact maxDepth 0).2.2, ?_⟩
        simp only [Snap.take_snapshot, hraw, Bool.false_eq_true, if_false]
        exact process_aria_keys raw compact maxDepth
      | true =>
        refine ⟨(Snap.cursorLoop
          ((Snap.process_aria_text raw compact maxDepth 0).2.1.filterMap (fun p =>
            if nameTruthy p.2.name then some (lowerStr (p.2.name.getD "")) else none))
          cursorEls
          ((Snap.process_aria_text raw compact maxDepth 0).2.1,
           (Snap.process_aria_text raw compact maxDepth 0).1,
           (Snap.process_aria_text raw compact maxDepth 0).2.2)).2.2, ?_⟩
        simp only [Snap.take_snapshot, hraw, Bool.false_eq_true, if_false, if_true]
        exact cursorLoop_keys _ cursorEls _ _ _ (process_aria_keys raw compact maxDepth)

/-- C2 witness: a snapshot with two ARIA refs and one appended cursor ref
is keyed `@e1, @e2, @e3` (one cursor element is skipped by name dedup and
consumes no counter value). -/
theorem C2_snapshot_ref_keys_witness :
    (Snap.take_snapshot (.ok "- button \"Go\"\n- link \"Go2\"")
      [⟨"More", "div.x", true⟩, ⟨"go", "div.y", false⟩]
      true true 10 "http://x" "T" 1 1).refs.map Prod.fst =
      Snap.refKeyRange 0
        ((Snap.take_snapshot (.ok "- button \"Go\"\n- link \"Go2\"")
          [⟨"More", "div.x", true⟩, ⟨"go", "div.y", false⟩]
          true true 10 "http://x" "T" 1 1).refs.length) ∧
    ((Snap.take_snapshot (.ok "- button \"Go\"\n- link \"Go2\"")
      [⟨"More", "div.x", true⟩, ⟨"go", "div.y", false⟩]
      true true 10 "http://x" "T" 1 1).refs.map Prod.fst).Nodup :=
  C2_snapshot_ref_keys (.ok "- button \"Go\"\n- link \"Go2\"")
    [⟨"More", "div.x", true⟩, ⟨"go", "div.y", false⟩]
    true true 10 "http://x" "T" 1 1 (by decide)

/-! ## Claim C3: snapshot diff on an unchanged page -/

theorem mem_currK_keys (curr : List (String × RefData)) (p : String × RefData)
    (hp : p ∈ curr) :
    Diff.refKeyOf p.2 ∈ (Diff.keyedOf curr).map Prod.fst :=
  List.mem_map.mpr ⟨(Diff.refKeyOf p.2, p.2), List.mem_map.mpr ⟨p, hp, rfl⟩, rfl⟩

theorem isNone_false_of_mem_keys {κ α : Type} [DecidableEq κ]
    (d : List (κ × α)) (k : κ) (h : k ∈ d.map Prod.fst) :
    (alookup d k).isNone = false := by
  have hs := alookup_isSome_of_mem_keys d k h
  cases halk : alookup d k with
  | none => rw [halk] at hs; simp at hs
  | some v => rfl

theorem changedKeys_self (currK : List ((String × Option String × Option Nat) × RefData)) :
    Diff.changedKeys currK currK = [] := by
  apply List.filter_eq_nil_iff.mpr
  intro k hk
  cases halk : alookup currK k <;> simp [halk]

theorem star_not_prefix_render (p : String × RefData) :
    ("*").data.isPrefixOf (Diff.renderRef p).data = false := rfl

/-- C3: for two consecutive snapshots whose refs agree under the
`(role, name, nth?)` key, the diff reports zero new, zero changed and zero
removed elements and no tree line carries the `*` marker. -/
theorem C3_diff_unchanged (prev curr : List (String × RefData))
    (h : Diff.keyedOf prev = Diff.keyedOf curr) :
    (Diff.snapshotDiff prev curr).newCount = 0 ∧
    (Diff.snapshotDiff prev curr).removedCount = 0 ∧
    (Diff.snapshotDiff prev curr).changedCount = 0 ∧
    ∀ l ∈ Diff.diffTree prev curr, ("*").data.isPrefixOf l.data = false := by
  refine ⟨?_, ?_, ?_, ?_⟩
  · simp only [Diff.snapshotDiff, h]
    rw [List.length_eq_zero]
    apply List.filter_eq_nil_iff.mpr
    intro p hp
    simp [isNone_false_of_mem_keys _ _ (mem_currK_keys curr p hp)]
  · simp only [Diff.snapshotDiff, h]
    rw [List.length_eq_zero]
    apply List.filter_eq_nil_iff.mpr
    intro k hk
    have hm : k ∈ (Diff.keyedOf curr).map Prod.fst := List.dedup_subset _ hk
    simp [isNone_false_of_mem_keys _ _ hm]
  · simp only [Diff.snapshotDiff, h, changedKeys_self]
    rfl
  · intro l hl
    simp only [Diff.diffTree, h, changedKeys_self] at hl
    rcases List.mem_map.mp hl with ⟨p, hp, hlp⟩
    rw [isNone_false_of_mem_keys _ _ (mem_currK_keys curr p hp)] at hlp
    simp only [List.not_mem_nil, or_false, Bool.false_eq_true, if_false] at hlp
    rw [← hlp]
    exact star_not_prefix_render p

/-- C3 witness: a concrete repeated snapshot produces an all-zero diff with
unmarked tree lines. -/
theorem C3_diff_unchanged_witness :
    (Diff.snapshotDiff [("@e1", ⟨"link", some "More", "sel1", none⟩)]
      [("@e1", ⟨"link", some "More", "sel1", none⟩)]).newCount = 0 ∧
    (Diff.snapshotDiff [("@e1", ⟨"link", some "More", "sel1", none⟩)]
      [("@e1", ⟨"link", some "More", "sel1", none⟩)]).removedCount = 0 ∧
    (Diff.snapshotDiff [("@e1", ⟨"link", some "More", "sel1", none⟩)]
      [("@e1", ⟨"link", some "More", "sel1", none⟩)]).changedCount = 0 ∧
    ∀ l ∈ Diff.diffTree [("@e1", ⟨"link", some "More", "sel1", none⟩)]
      [("@e1", ⟨"link", some "More", "sel1", none⟩)],
      ("*").data.isPrefixOf l.data = false :=
  C3_diff_unchanged [("@e1", ⟨"link", some "More", "sel1", none⟩)]
    [("@e1", ⟨"link", some "More", "sel1", none⟩)] rfl
